import Mathlib

/-
Verification of the ucctl tenant-sync reconciliation engine.

The engine lives in two parallel implementations in the repository:
  cmd/ucctl/synctenant/{resources.go,command.go}  (package synctenant)
  cmd/ucctl/sync/tenant.go                        (package sync)
Entity records and their EqualsIgnoringID methods come from the external
userclouds.com/authz package, which is not part of the repository snapshot;
those are modelled from the specification (sections 3 and 4.1).

Machine conventions of the embedding:
  - uuid.UUID values are opaque identifiers; they are modelled as Nat.
  - the remote authz client is modelled as an oracle from mutation calls
    to an optional error code (none = the call succeeds);
  - Go's nil-pointer dereference of Object.Alias is modelled as the
    distinguished Outcome.nilAliasDeref outcome;
  - a Go map built by inserting entries in slice order (later inserts
    overwrite earlier ones for an equal key) is modelled by searching the
    reversed slice for the first entry with the given key.
-/

/-- Opaque 128-bit identifier (gofrs uuid.UUID), modelled as Nat. -/
abbrev UUID := Nat

/-- authz.ObjectType. Modelled from the spec: ObjectType is {ID, TypeName}. -/
structure ObjectType where
  ID : UUID
  TypeName : String
deriving DecidableEq

/-- authz.Object. Modelled from the spec: Object is {ID, TypeID, Alias?},
where Alias is an optional (nullable pointer) human-readable name. -/
structure Object where
  ID : UUID
  TypeID : UUID
  Alias : Option String
deriving DecidableEq

/-- authz.EdgeType. Modelled from the spec: EdgeType is
{ID, TypeName, SourceObjectTypeID, TargetObjectTypeID, Attributes}. -/
structure EdgeType where
  ID : UUID
  TypeName : String
  SourceObjectTypeID : UUID
  TargetObjectTypeID : UUID
  Attributes : List String
deriving DecidableEq

/-- authz.Edge. Modelled from the spec: Edge is
{ID, EdgeTypeID, SourceObjectID, TargetObjectID}. -/
structure Edge where
  ID : UUID
  EdgeTypeID : UUID
  SourceObjectID : UUID
  TargetObjectID : UUID
deriving DecidableEq

/-- Order-insensitive set equality of attribute lists. Modelled from the
spec: for EdgeType, Attributes equality is order-insensitive set equality. -/
def setEqAttrs (x y : List String) : Bool :=
  x.all (fun a => y.contains a) && y.all (fun a => x.contains a)

/-- Modelled from the spec: content equality of ObjectTypes ignores the
identifier and compares every other field (here: TypeName). -/
def ObjectType.EqualsIgnoringID (a b : ObjectType) : Bool :=
  a.TypeName == b.TypeName

/-- Modelled from the spec: content equality of Objects ignores the
identifier and compares TypeID and Alias; a null Alias is distinct from an
empty string alias (Option captures the nullable pointer). -/
def Object.EqualsIgnoringID (a b : Object) : Bool :=
  a.TypeID == b.TypeID && a.Alias == b.Alias

/-- Modelled from the spec: content equality of EdgeTypes ignores the
identifier and compares TypeName, the two endpoint type ids, and the
attribute set (order-insensitively). -/
def EdgeType.EqualsIgnoringID (a b : EdgeType) : Bool :=
  a.TypeName == b.TypeName &&
  a.SourceObjectTypeID == b.SourceObjectTypeID &&
  a.TargetObjectTypeID == b.TargetObjectTypeID &&
  setEqAttrs a.Attributes b.Attributes

/-- Modelled from the spec: content equality of Edges ignores the identifier
and compares EdgeTypeID and the two endpoint object ids. -/
def Edge.EqualsIgnoringID (a b : Edge) : Bool :=
  a.EdgeTypeID == b.EdgeTypeID &&
  a.SourceObjectID == b.SourceObjectID &&
  a.TargetObjectID == b.TargetObjectID

/-- One remote mutation call of the authz client, with its arguments in the
order the Go code passes them (spec section 6 lists the operations). -/
inductive Call where
  | createObjectType (id : UUID) (name : String)
  | createObject (id : UUID) (typeID : UUID) (al : String)
  | createEdgeType (id : UUID) (srcT : UUID) (tgtT : UUID) (name : String) (attrs : List String)
  | createEdge (id : UUID) (srcO : UUID) (tgtO : UUID) (etID : UUID)
  | deleteObjectType (id : UUID)
  | deleteObject (id : UUID)
  | deleteEdgeType (id : UUID)
  | deleteEdge (id : UUID)
deriving DecidableEq

/-- Result of running a phase: normal return, an error return carrying the
remote error code, or a Go runtime panic from dereferencing a nil Alias. -/
inductive Outcome where
  | success
  | failure (e : Nat)
  | nilAliasDeref
deriving DecidableEq

/-- The in-memory snapshot / change-set record. Both packages declare the
identical struct (Resources in synctenant/resources.go, resources in
sync/tenant.go), with fields in this order. -/
structure Resources where
  edgeTypes : List EdgeType
  edges : List Edge
  objectTypes : List ObjectType
  objects : List Object
deriving DecidableEq

/-- NewResources / newResources: all four collections start empty. -/
def NewResources : Resources :=
  { edgeTypes := [], edges := [], objectTypes := [], objects := [] }

/-- Lookup in the identifier-indexed Go map built by inserting the slice's
entries in order: a later entry with the same key overwrites an earlier one,
so the lookup returns the last matching entry, found by scanning the
reversed slice. -/
def lookupById {α : Type} (key : α → UUID) (l : List α) (k : UUID) : Option α :=
  l.reverse.find? (fun b => key b == k)

/-- One kind's diff loop (resources.go lines 159-185, tenant.go lines
489-511): iterate src in order and keep a when the destination map has no
entry for its id, or has one that is not content-equal to a. -/
def diffOne {α : Type} (key : α → UUID) (eq : α → α → Bool)
    (src dst : List α) : List α :=
  src.filter (fun a =>
    match lookupById key dst (key a) with
    | none => true
    | some b => !eq a b)

/-- Resources.Diff (synctenant/resources.go 138-186) and resources.diff
(sync/tenant.go 466-512): build per-kind id maps of dst, then append to r's
collections every src entity that is missing from or different in dst. -/
def Resources.Diff (r src dst : Resources) : Resources :=
  { edgeTypes := r.edgeTypes ++
      diffOne (fun et => et.ID) EdgeType.EqualsIgnoringID src.edgeTypes dst.edgeTypes,
    edges := r.edges ++
      diffOne (fun e => e.ID) Edge.EqualsIgnoringID src.edges dst.edges,
    objectTypes := r.objectTypes ++
      diffOne (fun ot => ot.ID) ObjectType.EqualsIgnoringID src.objectTypes dst.objectTypes,
    objects := r.objects ++
      diffOne (fun o => o.ID) Object.EqualsIgnoringID src.objects dst.objects }

/-- One mutation loop over a slice: issue the call for each entity in order
and return early with the error of the first failing call, keeping the
trace of calls issued so far (the failing call included). -/
def applyLoop {α : Type} (mk : α → Call) (ok : Call → Option Nat) :
    List α → List Call × Outcome
  | [] => ([], Outcome.success)
  | x :: xs =>
    let c := mk x
    match ok c with
    | some e => ([c], Outcome.failure e)
    | none =>
      let r := applyLoop mk ok xs
      (c :: r.1, r.2)

/-- The Object insertion loop: the Go code passes the dereferenced alias
pointer to CreateObject, so reaching an Object whose Alias is nil panics
before any call for it is issued. -/
def applyObjLoop (ok : Call → Option Nat) :
    List Object → List Call × Outcome
  | [] => ([], Outcome.success)
  | o :: os =>
    match o.Alias with
    | none => ([], Outcome.nilAliasDeref)
    | some al =>
      let c := Call.createObject o.ID o.TypeID al
      match ok c with
      | some e => ([c], Outcome.failure e)
      | none =>
        let r := applyObjLoop ok os
        (c :: r.1, r.2)

/-- Sequence two phase stages: run the second only when the first returned
normally, concatenating the call traces. -/
def seq2 (p : List Call × Outcome) (q : List Call × Outcome) :
    List Call × Outcome :=
  match p.2 with
  | Outcome.success => (p.1 ++ q.1, q.2)
  | _ => p

/-- A stage guarded by the sync package's non-emptiness check
(if len(...) > 0): an empty slice skips the loop entirely. -/
def guarded {α : Type} (l : List α) (f : List α → List Call × Outcome) :
    List Call × Outcome :=
  if l.isEmpty then ([], Outcome.success) else f l

namespace synctenant

/-- Resources.Insert (synctenant/resources.go 58-96): create ObjectTypes,
then Objects (dereferencing each Alias), then EdgeTypes, then Edges,
returning on the first error. -/
def Resources.Insert (r : Resources) (ok : Call → Option Nat) :
    List Call × Outcome :=
  seq2 (applyLoop (fun ot => Call.createObjectType ot.ID ot.TypeName) ok r.objectTypes)
    (seq2 (applyObjLoop ok r.objects)
      (seq2 (applyLoop (fun et =>
          Call.createEdgeType et.ID et.SourceObjectTypeID et.TargetObjectTypeID
            et.TypeName et.Attributes) ok r.edgeTypes)
        (applyLoop (fun e =>
          Call.createEdge e.ID e.SourceObjectID e.TargetObjectID e.EdgeTypeID) ok r.edges)))

/-- Resources.Delete (synctenant/resources.go 98-136): delete Edges, then
EdgeTypes, then Objects, then ObjectTypes; the ObjectType loop at line 128
invokes azc.DeleteObject with the ObjectType's id, not DeleteObjectType. -/
def Resources.Delete (r : Resources) (ok : Call → Option Nat) :
    List Call × Outcome :=
  seq2 (applyLoop (fun e => Call.deleteEdge e.ID) ok r.edges)
    (seq2 (applyLoop (fun et => Call.deleteEdgeType et.ID) ok r.edgeTypes)
      (seq2 (applyLoop (fun o => Call.deleteObject o.ID) ok r.objects)
        (applyLoop (fun ot => Call.deleteObject ot.ID) ok r.objectTypes)))

end synctenant

namespace sync

/-- resources.insert (sync/tenant.go 342-402): same kind order as the
synctenant package, each stage wrapped in a non-emptiness guard. -/
def resources.insert (r : Resources) (ok : Call → Option Nat) :
    List Call × Outcome :=
  seq2 (guarded r.objectTypes
        (applyLoop (fun ot => Call.createObjectType ot.ID ot.TypeName) ok))
    (seq2 (guarded r.objects (applyObjLoop ok))
      (seq2 (guarded r.edgeTypes
            (applyLoop (fun et =>
              Call.createEdgeType et.ID et.SourceObjectTypeID et.TargetObjectTypeID
                et.TypeName et.Attributes) ok))
        (guarded r.edges
          (applyLoop (fun e =>
            Call.createEdge e.ID e.SourceObjectID e.TargetObjectID e.EdgeTypeID) ok))))

/-- resources.delete (sync/tenant.go 404-464): delete Edges, then EdgeTypes,
then Objects, then ObjectTypes, each stage guarded by non-emptiness; the
ObjectType loop at line 455 invokes azc.DeleteObjectType. -/
def resources.delete (r : Resources) (ok : Call → Option Nat) :
    List Call × Outcome :=
  seq2 (guarded r.edges (applyLoop (fun e => Call.deleteEdge e.ID) ok))
    (seq2 (guarded r.edgeTypes (applyLoop (fun et => Call.deleteEdgeType et.ID) ok))
      (seq2 (guarded r.objects (applyLoop (fun o => Call.deleteObject o.ID) ok))
        (guarded r.objectTypes
          (applyLoop (fun ot => Call.deleteObjectType ot.ID) ok))))

end sync

/-- The call an Object's insertion would issue, with a nil Alias read as the
empty string; used only to phrase ordering statements about traces. -/
def objCallD (o : Object) : Call :=
  Call.createObject o.ID o.TypeID (o.Alias.getD "")

/-- The full sequence of creation calls an insertion phase issues when every
call succeeds: ObjectTypes, then Objects, then EdgeTypes, then Edges. -/
def insertPlan (r : Resources) : List Call :=
  r.objectTypes.map (fun ot => Call.createObjectType ot.ID ot.TypeName) ++
  (r.objects.map objCallD ++
  (r.edgeTypes.map (fun et =>
    Call.createEdgeType et.ID et.SourceObjectTypeID et.TargetObjectTypeID
      et.TypeName et.Attributes) ++
  r.edges.map (fun e =>
    Call.createEdge e.ID e.SourceObjectID e.TargetObjectID e.EdgeTypeID)))

/-- The full sequence of deletion calls the synctenant deletion phase issues
when every call succeeds: Edges, EdgeTypes, Objects, then ObjectTypes (the
last via the deleteObject operation, as the code does). -/
def synctenantDeletePlan (r : Resources) : List Call :=
  r.edges.map (fun e => Call.deleteEdge e.ID) ++
  (r.edgeTypes.map (fun et => Call.deleteEdgeType et.ID) ++
  (r.objects.map (fun o => Call.deleteObject o.ID) ++
  r.objectTypes.map (fun ot => Call.deleteObject ot.ID)))

/-- The full sequence of deletion calls the sync-package deletion phase
issues when every call succeeds: Edges, EdgeTypes, Objects, ObjectTypes. -/
def syncDeletePlan (r : Resources) : List Call :=
  r.edges.map (fun e => Call.deleteEdge e.ID) ++
  (r.edgeTypes.map (fun et => Call.deleteEdgeType et.ID) ++
  (r.objects.map (fun o => Call.deleteObject o.ID) ++
  r.objectTypes.map (fun ot => Call.deleteObjectType ot.ID)))

/-- Fail-fast execution of a planned call sequence against the oracle:
issue calls in order, stopping at (and recording) the first failing call. -/
def execPlan (ok : Call → Option Nat) : List Call → List Call × Outcome
  | [] => ([], Outcome.success)
  | c :: cs =>
    match ok c with
    | some e => ([c], Outcome.failure e)
    | none =>
      let r := execPlan ok cs
      (c :: r.1, r.2)

/-- One page of a paginated list response: the page's entities and the
continuation flag (the continuation cursor itself is opaque round-trip data
and is not modelled). -/
structure Page (α : Type) where
  Data : List α
  HasNext : Bool
deriving DecidableEq

/-- The cursor loop shared by the four paginated fetchers: consume the
responses the client returns in order, accumulating pages into a local list;
a failing request aborts with its error; a page with HasNext false ends the
loop. An exhausted response stream is read as ending normally. -/
def pageLoop {α : Type} : List (Except Nat (Page α)) → List α → Except Nat (List α)
  | [], acc => Except.ok acc
  | Except.error e :: _, _ => Except.error e
  | Except.ok p :: rest, acc =>
    if p.HasNext then pageLoop rest (acc ++ p.Data) else Except.ok (acc ++ p.Data)

/-- Resources.readAllEdges (synctenant/resources.go 198-217): run the page
loop over a local accumulator and store it into r.edges only on success; on
error the method returns the error with the receiver untouched. -/
def Resources.readAllEdges (r : Resources) (resps : List (Except Nat (Page Edge))) :
    Resources × Option Nat :=
  match pageLoop resps [] with
  | Except.error e => (r, some e)
  | Except.ok es => ({ r with edges := es }, none)

/-- Resources.readAllObjects (synctenant/resources.go 229-249): the same
loop for Objects, storing into r.objects only on success. -/
def Resources.readAllObjects (r : Resources) (resps : List (Except Nat (Page Object))) :
    Resources × Option Nat :=
  match pageLoop resps [] with
  | Except.error e => (r, some e)
  | Except.ok os => ({ r with objects := os }, none)

/-- resources.fetchEdges (sync/tenant.go 523-542), identical to
Resources.readAllEdges. -/
def Resources.fetchEdges (r : Resources) (resps : List (Except Nat (Page Edge))) :
    Resources × Option Nat :=
  match pageLoop resps [] with
  | Except.error e => (r, some e)
  | Except.ok es => ({ r with edges := es }, none)

/-- resources.fetchObjects (sync/tenant.go 553-572), identical to
Resources.readAllObjects. -/
def Resources.fetchObjects (r : Resources) (resps : List (Except Nat (Page Object))) :
    Resources × Option Nat :=
  match pageLoop resps [] with
  | Except.error e => (r, some e)
  | Except.ok os => ({ r with objects := os }, none)

/-- Observable event of one orchestrator run: a remote mutation call, or
one evaluation of the diff computation for a phase. -/
inductive Event where
  | call (c : Call)
  | diffDeletions
  | diffInsertions
deriving DecidableEq

/-- Does a call belong to the Delete* family of operations. -/
def isDeleteCall : Call → Bool
  | Call.deleteObjectType _ => true
  | Call.deleteObject _ => true
  | Call.deleteEdgeType _ => true
  | Call.deleteEdge _ => true
  | _ => false

/-- Does an event record a Delete* remote call. -/
def isDeleteEvent : Event → Bool
  | Event.call c => isDeleteCall c
  | _ => false

/-- Does the change-set hold any entity at all (the sync package's guard
before invoking an apply phase, tenant.go lines 210-211 and 238-239). -/
def hasAny (r : Resources) : Bool :=
  !r.objectTypes.isEmpty || !r.objects.isEmpty ||
  !r.edgeTypes.isEmpty || !r.edges.isEmpty

namespace synctenant

/-- Command.sync (synctenant/command.go 85-115), after both snapshots have
been fetched: unless insert-only, compute the deletion diff and, unless
dry-run, apply it, aborting on its error; then compute the insertion diff;
in dry-run stop there, otherwise apply the insertions. -/
def Command.sync (dryRun insertOnly : Bool) (src dst : Resources)
    (ok : Call → Option Nat) : List Event × Outcome :=
  let step1 : List Event × Outcome :=
    if !insertOnly then
      if !dryRun then
        let del := Resources.Diff NewResources dst src
        let r := Resources.Delete del ok
        (Event.diffDeletions :: r.1.map Event.call, r.2)
      else ([Event.diffDeletions], Outcome.success)
    else ([], Outcome.success)
  match step1 with
  | (evts, Outcome.success) =>
    let ins := Resources.Diff NewResources src dst
    if dryRun then (evts ++ [Event.diffInsertions], Outcome.success)
    else
      let r := Resources.Insert ins ok
      (evts ++ [Event.diffInsertions] ++ r.1.map Event.call, r.2)
  | other => other

end synctenant

namespace sync

/-- TenantCommand.sync (sync/tenant.go 202-248), after both snapshots have
been fetched: the same orchestration as synctenant.Command.sync, with each
apply phase additionally guarded by the change-set being non-empty. -/
def TenantCommand.sync (dryRun insertOnly : Bool) (src dst : Resources)
    (ok : Call → Option Nat) : List Event × Outcome :=
  let step1 : List Event × Outcome :=
    if !insertOnly then
      if !dryRun then
        let del := Resources.Diff NewResources dst src
        if hasAny del then
          let r := resources.delete del ok
          (Event.diffDeletions :: r.1.map Event.call, r.2)
        else ([Event.diffDeletions], Outcome.success)
      else ([Event.diffDeletions], Outcome.success)
    else ([], Outcome.success)
  match step1 with
  | (evts, Outcome.success) =>
    let ins := Resources.Diff NewResources src dst
    if dryRun then (evts ++ [Event.diffInsertions], Outcome.success)
    else if hasAny ins then
      let r := resources.insert ins ok
      (evts ++ [Event.diffInsertions] ++ r.1.map Event.call, r.2)
    else (evts ++ [Event.diffInsertions], Outcome.success)
  | other => other

end sync

/-- Did a page request succeed with the continuation flag set (so the fetch
loop keeps going past it). -/
def pageOk {α : Type} : Except Nat (Page α) → Bool
  | Except.ok p => p.HasNext
  | Except.error _ => false

/-- Sample source snapshot used by witnesses: two object types and one
object. -/
def sampleA : Resources :=
  { edgeTypes := [], edges := [],
    objectTypes := [{ ID := 1, TypeName := "user" }, { ID := 2, TypeName := "svc" }],
    objects := [{ ID := 10, TypeID := 1, Alias := some "alice" }] }

/-- Sample destination snapshot used by witnesses: shares object type 1 and
holds a content-different object 10. -/
def sampleB : Resources :=
  { edgeTypes := [], edges := [],
    objectTypes := [{ ID := 1, TypeName := "user" }],
    objects := [{ ID := 10, TypeID := 1, Alias := some "bob" }] }

/-- Resources change-set holding a single ObjectType, used as the failing
input exhibiting the deletion-operation mismatch. -/
def otOnly : Resources :=
  { edgeTypes := [], edges := [],
    objectTypes := [{ ID := 1, TypeName := "user" }], objects := [] }

/-- Oracle failing exactly on the creation of object type 2. -/
def okInsFail : Call → Option Nat :=
  fun c => if c = Call.createObjectType 2 "svc" then some 7 else none

/-- Oracle failing exactly on the deletion of object 10. -/
def okDelFail : Call → Option Nat :=
  fun c => if c = Call.deleteObject 10 then some 3 else none

/-- Resources change-set holding one Object whose Alias is absent. -/
def noAliasRes : Resources :=
  { edgeTypes := [], edges := [], objectTypes := [],
    objects := [{ ID := 10, TypeID := 1, Alias := none }] }

/-- Sample Edge page responses: one successful continuing page followed by a
failing request. -/
def edgeRespsFail : List (Except Nat (Page Edge)) :=
  [Except.ok { Data := [{ ID := 20, EdgeTypeID := 3, SourceObjectID := 10,
                          TargetObjectID := 11 }], HasNext := true },
   Except.error 5]

/-- Sample Object page responses: one successful continuing page followed by
a failing request. -/
def objectRespsFail : List (Except Nat (Page Object)) :=
  [Except.ok { Data := [{ ID := 10, TypeID := 1, Alias := some "alice" }],
               HasNext := true },
   Except.error 6]

/-- A lookup hit comes from the list and has the requested key. -/
theorem lookupById_mem_key {α : Type} {key : α → UUID} {l : List α} {k : UUID}
    {b : α} (h : lookupById key l k = some b) : b ∈ l ∧ key b = k := by
  unfold lookupById at h
  refine ⟨List.mem_reverse.1 (List.mem_of_find?_eq_some h), ?_⟩
  have := List.find?_some h
  simpa [beq_iff_eq] using this

/-- A lookup miss means no entry of the list has the requested key. -/
theorem lookupById_eq_none {α : Type} {key : α → UUID} {l : List α} {k : UUID}
    (h : lookupById key l k = none) : ∀ b ∈ l, key b ≠ k := by
  unfold lookupById at h
  intro b hb
  have := List.find?_eq_none.1 h b (List.mem_reverse.2 hb)
  simpa [beq_iff_eq] using this

/-- With pairwise-distinct keys, looking up a member's key returns exactly
that member. -/
theorem lookupById_self {α : Type} {key : α → UUID} {l : List α} {a : α}
    (hnd : (l.map key).Nodup) (ha : a ∈ l) :
    lookupById key l (key a) = some a := by
  have hs : (l.reverse.find? (fun b => key b == key a)).isSome = true := by
    refine List.find?_isSome.2 ⟨a, List.mem_reverse.2 ha, ?_⟩
    simp
  obtain ⟨b, hb⟩ := Option.isSome_iff_exists.1 hs
  obtain ⟨hbmem, hbkey⟩ := lookupById_mem_key hb
  have : b = a := List.inj_on_of_nodup_map hnd hbmem ha hbkey
  subst this
  exact hb

/-- With pairwise-distinct destination keys, the per-kind diff keeps exactly
the source entities for which no destination entity shares their identifier
and is content-equal to them, in source order. -/
theorem diffOne_eq_filter {α : Type} {key : α → UUID} {eq : α → α → Bool}
    {src dst : List α} (hnd : (dst.map key).Nodup) :
    diffOne key eq src dst =
      src.filter (fun a => !(dst.any (fun b => key b == key a && eq a b))) := by
  unfold diffOne
  refine List.filter_congr ?_
  intro a _
  cases hcase : lookupById key dst (key a) with
  | none =>
    have hnone := lookupById_eq_none hcase
    have : dst.any (fun b => key b == key a && eq a b) = false := by
      rw [← Bool.not_eq_true, List.any_eq_true]
      rintro ⟨b, hbmem, hbp⟩
      rw [Bool.and_eq_true] at hbp
      have hk : key b = key a := by
        simpa [beq_iff_eq] using hbp.1
      exact hnone b hbmem hk
    rw [this]
    simp
  | some b =>
    obtain ⟨hbmem, hbkey⟩ := lookupById_mem_key hcase
    cases heq : eq a b with
    | true =>
      have : dst.any (fun b2 => key b2 == key a && eq a b2) = true := by
        refine List.any_eq_true.2 ⟨b, hbmem, ?_⟩
        simp [hbkey, heq]
      rw [this]
      simp [heq]
    | false =>
      have : dst.any (fun b2 => key b2 == key a && eq a b2) = false := by
        rw [← Bool.not_eq_true, List.any_eq_true]
        rintro ⟨b2, hb2mem, hb2p⟩
        rw [Bool.and_eq_true] at hb2p
        obtain ⟨hb2k, hb2eq⟩ := hb2p
        have hk2 : key b2 = key a := by simpa [beq_iff_eq] using hb2k
        have : b2 = b := List.inj_on_of_nodup_map hnd hb2mem hbmem (hk2.trans hbkey.symm)
        subst this
        rw [heq] at hb2eq
        exact absurd hb2eq (by simp)
      rw [this]
      simp [heq]

/-- A source entity whose identifier has a non-content-equal counterpart in
the destination is kept by the per-kind diff. -/
theorem mem_diffOne {α : Type} {key : α → UUID} {eq : α → α → Bool}
    {src dst : List α} {a b : α} (hnd : (dst.map key).Nodup)
    (ha : a ∈ src) (hb : b ∈ dst) (hkey : key a = key b)
    (hne : eq a b = false) : a ∈ diffOne key eq src dst := by
  unfold diffOne
  refine List.mem_filter.2 ⟨ha, ?_⟩
  rw [hkey, lookupById_self hnd hb]
  simp [hne]

/-- Diffing a list of pairwise-distinct keys against itself keeps nothing,
provided the content comparison is reflexive on its elements. -/
theorem diffOne_self {α : Type} {key : α → UUID} {eq : α → α → Bool}
    {src : List α} (hnd : (src.map key).Nodup)
    (hrefl : ∀ a ∈ src, eq a a = true) :
    diffOne key eq src src = [] := by
  unfold diffOne
  refine List.filter_eq_nil_iff.2 ?_
  intro a ha
  rw [lookupById_self hnd ha]
  simp [hrefl a ha]

/-- Boolean equality tests are symmetric under a lawful BEq instance. -/
theorem beqComm {α : Type} [BEq α] [LawfulBEq α] (a b : α) :
    (a == b) = (b == a) := by
  rw [Bool.eq_iff_iff]
  simp [beq_iff_eq]
  exact eq_comm

/-- Attribute-set equality is reflexive. -/
theorem setEqAttrs_refl (x : List String) : setEqAttrs x x = true := by
  unfold setEqAttrs
  rw [Bool.and_self]
  refine List.all_eq_true.2 ?_
  intro a ha
  simpa using ha

/-- Attribute-set equality is symmetric. -/
theorem setEqAttrs_comm (x y : List String) : setEqAttrs x y = setEqAttrs y x := by
  unfold setEqAttrs
  exact Bool.and_comm _ _

/-- ObjectType content equality is reflexive. -/
theorem objectTypeEqRefl (a : ObjectType) : a.EqualsIgnoringID a = true := by
  simp [ObjectType.EqualsIgnoringID]

/-- Object content equality is reflexive. -/
theorem objectEqRefl (a : Object) : a.EqualsIgnoringID a = true := by
  simp [Object.EqualsIgnoringID]

/-- EdgeType content equality is reflexive. -/
theorem edgeTypeEqRefl (a : EdgeType) : a.EqualsIgnoringID a = true := by
  simp [EdgeType.EqualsIgnoringID, setEqAttrs_refl]

/-- Edge content equality is reflexive. -/
theorem edgeEqRefl (a : Edge) : a.EqualsIgnoringID a = true := by
  simp [Edge.EqualsIgnoringID]

/-- ObjectType content equality is symmetric. -/
theorem objectTypeEqComm (a b : ObjectType) :
    a.EqualsIgnoringID b = b.EqualsIgnoringID a := by
  simp only [ObjectType.EqualsIgnoringID]
  exact beqComm _ _

/-- Object content equality is symmetric. -/
theorem objectEqComm (a b : Object) :
    a.EqualsIgnoringID b = b.EqualsIgnoringID a := by
  simp only [Object.EqualsIgnoringID]
  rw [beqComm a.TypeID, beqComm a.Alias]

/-- EdgeType content equality is symmetric. -/
theorem edgeTypeEqComm (a b : EdgeType) :
    a.EqualsIgnoringID b = b.EqualsIgnoringID a := by
  simp only [EdgeType.EqualsIgnoringID]
  rw [beqComm a.TypeName, beqComm a.SourceObjectTypeID, beqComm a.TargetObjectTypeID,
    setEqAttrs_comm]

/-- Edge content equality is symmetric. -/
theorem edgeEqComm (a b : Edge) :
    a.EqualsIgnoringID b = b.EqualsIgnoringID a := by
  simp only [Edge.EqualsIgnoringID]
  rw [beqComm a.EdgeTypeID, beqComm a.SourceObjectID, beqComm a.TargetObjectID]

/-- C1: for every pair of snapshots and every entity kind, the diff of A
against B contains exactly those entities of A whose identifier is absent
from B or whose same-identifier entity in B is not content-equal
(EqualsIgnoringID), listed in A's iteration order. -/
theorem diff_exact_characterization (src dst : Resources)
    (h1 : (dst.edgeTypes.map (fun et => et.ID)).Nodup)
    (h2 : (dst.edges.map (fun e => e.ID)).Nodup)
    (h3 : (dst.objectTypes.map (fun ot => ot.ID)).Nodup)
    (h4 : (dst.objects.map (fun o => o.ID)).Nodup) :
    Resources.Diff NewResources src dst =
      { edgeTypes := src.edgeTypes.filter (fun a =>
          !(dst.edgeTypes.any (fun b => b.ID == a.ID && a.EqualsIgnoringID b))),
        edges := src.edges.filter (fun a =>
          !(dst.edges.any (fun b => b.ID == a.ID && a.EqualsIgnoringID b))),
        objectTypes := src.objectTypes.filter (fun a =>
          !(dst.objectTypes.any (fun b => b.ID == a.ID && a.EqualsIgnoringID b))),
        objects := src.objects.filter (fun a =>
          !(dst.objects.any (fun b => b.ID == a.ID && a.EqualsIgnoringID b))) } := by
  simp only [Resources.Diff, NewResources, List.nil_append,
    diffOne_eq_filter h1, diffOne_eq_filter h2, diffOne_eq_filter h3,
    diffOne_eq_filter h4]

/-- Witness for C1 at the sample snapshots. -/
theorem diff_exact_characterization_witness :
    ((sampleB.edgeTypes.map (fun et => et.ID)).Nodup ∧
     (sampleB.edges.map (fun e => e.ID)).Nodup ∧
     (sampleB.objectTypes.map (fun ot => ot.ID)).Nodup ∧
     (sampleB.objects.map (fun o => o.ID)).Nodup) ∧
    Resources.Diff NewResources sampleA sampleB =
      { edgeTypes := sampleA.edgeTypes.filter (fun a =>
          !(sampleB.edgeTypes.any (fun b => b.ID == a.ID && a.EqualsIgnoringID b))),
        edges := sampleA.edges.filter (fun a =>
          !(sampleB.edges.any (fun b => b.ID == a.ID && a.EqualsIgnoringID b))),
        objectTypes := sampleA.objectTypes.filter (fun a =>
          !(sampleB.objectTypes.any (fun b => b.ID == a.ID && a.EqualsIgnoringID b))),
        objects := sampleA.objects.filter (fun a =>
          !(sampleB.objects.any (fun b => b.ID == a.ID && a.EqualsIgnoringID b))) } :=
  ⟨⟨by decide, by decide, by decide, by decide⟩,
   diff_exact_characterization sampleA sampleB (by decide) (by decide)
     (by decide) (by decide)⟩

/-- C7: with pairwise-distinct identifiers per snapshot, an identifier
present in both snapshots whose two entities are not content-equal puts the
destination entity into the deletion set Diff(destination, source) and the
source entity into the insertion set Diff(source, destination), for each of
the four kinds. -/
theorem changed_entity_in_both_sets (src dst : Resources)
    (hs1 : (src.edgeTypes.map (fun et => et.ID)).Nodup)
    (hs2 : (src.edges.map (fun e => e.ID)).Nodup)
    (hs3 : (src.objectTypes.map (fun ot => ot.ID)).Nodup)
    (hs4 : (src.objects.map (fun o => o.ID)).Nodup)
    (hd1 : (dst.edgeTypes.map (fun et => et.ID)).Nodup)
    (hd2 : (dst.edges.map (fun e => e.ID)).Nodup)
    (hd3 : (dst.objectTypes.map (fun ot => ot.ID)).Nodup)
    (hd4 : (dst.objects.map (fun o => o.ID)).Nodup) :
    (∀ a b, a ∈ src.edgeTypes → b ∈ dst.edgeTypes → a.ID = b.ID →
        a.EqualsIgnoringID b = false →
        b ∈ (Resources.Diff NewResources dst src).edgeTypes ∧
        a ∈ (Resources.Diff NewResources src dst).edgeTypes) ∧
    (∀ a b, a ∈ src.edges → b ∈ dst.edges → a.ID = b.ID →
        a.EqualsIgnoringID b = false →
        b ∈ (Resources.Diff NewResources dst src).edges ∧
        a ∈ (Resources.Diff NewResources src dst).edges) ∧
    (∀ a b, a ∈ src.objectTypes → b ∈ dst.objectTypes → a.ID = b.ID →
        a.EqualsIgnoringID b = false →
        b ∈ (Resources.Diff NewResources dst src).objectTypes ∧
        a ∈ (Resources.Diff NewResources src dst).objectTypes) ∧
    (∀ a b, a ∈ src.objects → b ∈ dst.objects → a.ID = b.ID →
        a.EqualsIgnoringID b = false →
        b ∈ (Resources.Diff NewResources dst src).objects ∧
        a ∈ (Resources.Diff NewResources src dst).objects) := by
  refine ⟨?_, ?_, ?_, ?_⟩ <;> intro a b ha hb hid hne <;>
    simp only [Resources.Diff, NewResources, List.nil_append] <;> constructor
  case _ => exact mem_diffOne hs1 hb ha hid.symm (by rw [edgeTypeEqComm]; exact hne)
  case _ => exact mem_diffOne hd1 ha hb hid hne
  case _ => exact mem_diffOne hs2 hb ha hid.symm (by rw [edgeEqComm]; exact hne)
  case _ => exact mem_diffOne hd2 ha hb hid hne
  case _ => exact mem_diffOne hs3 hb ha hid.symm (by rw [objectTypeEqComm]; exact hne)
  case _ => exact mem_diffOne hd3 ha hb hid hne
  case _ => exact mem_diffOne hs4 hb ha hid.symm (by rw [objectEqComm]; exact hne)
  case _ => exact mem_diffOne hd4 ha hb hid hne

/-- Witness for C7: object 10 changed its alias between the samples, so the
destination form lands in the deletion set and the source form in the
insertion set. -/
theorem changed_entity_in_both_sets_witness :
    ({ ID := 10, TypeID := 1, Alias := some "bob" } : Object) ∈
      (Resources.Diff NewResources sampleB sampleA).objects ∧
    ({ ID := 10, TypeID := 1, Alias := some "alice" } : Object) ∈
      (Resources.Diff NewResources sampleA sampleB).objects :=
  (changed_entity_in_both_sets sampleA sampleB (by decide) (by decide) (by decide)
      (by decide) (by decide) (by decide) (by decide) (by decide)).2.2.2
    { ID := 10, TypeID := 1, Alias := some "alice" }
    { ID := 10, TypeID := 1, Alias := some "bob" }
    (by decide) (by decide) (by decide) (by decide)

/-- C8: with pairwise-distinct identifiers per kind, diffing a snapshot
against itself produces the empty change-set for all four kinds. -/
theorem diff_self_empty (s : Resources)
    (h1 : (s.edgeTypes.map (fun et => et.ID)).Nodup)
    (h2 : (s.edges.map (fun e => e.ID)).Nodup)
    (h3 : (s.objectTypes.map (fun ot => ot.ID)).Nodup)
    (h4 : (s.objects.map (fun o => o.ID)).Nodup) :
    Resources.Diff NewResources s s = NewResources := by
  simp only [Resources.Diff, NewResources, List.nil_append,
    diffOne_self h1 (fun a _ => edgeTypeEqRefl a),
    diffOne_self h2 (fun a _ => edgeEqRefl a),
    diffOne_self h3 (fun a _ => objectTypeEqRefl a),
    diffOne_self h4 (fun a _ => objectEqRefl a)]

/-- Witness for C8 at the sample source snapshot. -/
theorem diff_self_empty_witness :
    ((sampleA.edgeTypes.map (fun et => et.ID)).Nodup ∧
     (sampleA.edges.map (fun e => e.ID)).Nodup ∧
     (sampleA.objectTypes.map (fun ot => ot.ID)).Nodup ∧
     (sampleA.objects.map (fun o => o.ID)).Nodup) ∧
    Resources.Diff NewResources sampleA sampleA = NewResources :=
  ⟨⟨by decide, by decide, by decide, by decide⟩,
   diff_self_empty sampleA (by decide) (by decide) (by decide) (by decide)⟩

/-- A mutation loop is the fail-fast execution of its planned calls. -/
theorem applyLoop_eq_execPlan {α : Type} (mk : α → Call) (ok : Call → Option Nat)
    (xs : List α) : applyLoop mk ok xs = execPlan ok (xs.map mk) := by
  induction xs with
  | nil => rfl
  | cons x xs ih =>
    simp only [applyLoop, List.map_cons, execPlan]
    cases ok (mk x) with
    | some e => rfl
    | none => rw [ih]

/-- When every Object carries an alias, the Object insertion loop is the
fail-fast execution of its planned calls. -/
theorem applyObjLoop_eq_execPlan (ok : Call → Option Nat) (xs : List Object)
    (h : ∀ o ∈ xs, (o.Alias).isSome = true) :
    applyObjLoop ok xs = execPlan ok (xs.map objCallD) := by
  induction xs with
  | nil => rfl
  | cons o os ih =>
    obtain ⟨al, hal⟩ := Option.isSome_iff_exists.1 (h o (List.mem_cons_self o os))
    simp only [applyObjLoop, List.map_cons, execPlan, objCallD, hal, Option.getD_some]
    cases ok (Call.createObject o.ID o.TypeID al) with
    | some e => rfl
    | none => rw [ih (fun o2 ho2 => h o2 (List.mem_cons_of_mem o ho2))]

/-- Fail-fast execution distributes over concatenated plans as stage
sequencing. -/
theorem execPlan_append (ok : Call → Option Nat) (p q : List Call) :
    execPlan ok (p ++ q) = seq2 (execPlan ok p) (execPlan ok q) := by
  induction p with
  | nil => simp [execPlan, seq2]
  | cons c p ih =>
    simp only [List.cons_append, execPlan, List.append_eq]
    cases hc : ok c with
    | some e => simp [seq2]
    | none =>
      rw [ih]
      rcases hp : execPlan ok p with ⟨tr, o⟩
      cases o <;> simp [seq2]

/-- The trace of a fail-fast execution is an initial segment of its plan. -/
theorem execPlan_initseg (ok : Call → Option Nat) (cs : List Call) :
    ∃ t, cs = (execPlan ok cs).1 ++ t := by
  induction cs with
  | nil => exact ⟨[], rfl⟩
  | cons c cs ih =>
    cases hc : ok c with
    | some e => exact ⟨cs, by simp [execPlan, hc]⟩
    | none =>
      obtain ⟨t, ht⟩ := ih
      exact ⟨t, by simp [execPlan, hc]; exact ht⟩

/-- A successful fail-fast execution issued its whole plan. -/
theorem execPlan_success (ok : Call → Option Nat) (cs : List Call)
    (h : (execPlan ok cs).2 = Outcome.success) : (execPlan ok cs).1 = cs := by
  induction cs with
  | nil => rfl
  | cons c cs ih =>
    cases hc : ok c with
    | some e => simp [execPlan, hc] at h
    | none =>
      simp only [execPlan, hc] at h ⊢
      simpa using ih h

/-- Fail-fast execution never produces the nil-dereference outcome. -/
theorem execPlan_no_deref (ok : Call → Option Nat) (cs : List Call) :
    (execPlan ok cs).2 ≠ Outcome.nilAliasDeref := by
  induction cs with
  | nil => simp [execPlan]
  | cons c cs ih =>
    cases hc : ok c with
    | some e => simp [execPlan, hc]
    | none => simpa [execPlan, hc] using ih

/-- The Object insertion loop's trace is an initial segment of the Object
plan, whether it stops on an error or on a missing alias. -/
theorem applyObjLoop_initseg (ok : Call → Option Nat) (xs : List Object) :
    ∃ t, xs.map objCallD = (applyObjLoop ok xs).1 ++ t := by
  induction xs with
  | nil => exact ⟨[], rfl⟩
  | cons o os ih =>
    cases hal : o.Alias with
    | none => exact ⟨objCallD o :: os.map objCallD, by simp [applyObjLoop, hal]⟩
    | some al =>
      cases hc : ok (Call.createObject o.ID o.TypeID al) with
      | some e => exact ⟨os.map objCallD, by simp [applyObjLoop, hal, hc, objCallD]⟩
      | none =>
        obtain ⟨t, ht⟩ := ih
        exact ⟨t, by simp [applyObjLoop, hal, hc, objCallD]; exact ht⟩

/-- A successful Object insertion loop issued its whole Object plan. -/
theorem applyObjLoop_success (ok : Call → Option Nat) (xs : List Object)
    (h : (applyObjLoop ok xs).2 = Outcome.success) :
    (applyObjLoop ok xs).1 = xs.map objCallD := by
  induction xs with
  | nil => rfl
  | cons o os ih =>
    cases hal : o.Alias with
    | none => simp [applyObjLoop, hal] at h
    | some al =>
      cases hc : ok (Call.createObject o.ID o.TypeID al) with
      | some e => simp [applyObjLoop, hal, hc] at h
      | none =>
        simp only [applyObjLoop, hal, hc] at h ⊢
        simp [objCallD, hal, ih h]

/-- The corresponding trace of a loop is an initial segment of the plan. -/
theorem applyLoop_initseg {α : Type} (mk : α → Call) (ok : Call → Option Nat)
    (xs : List α) : ∃ t, xs.map mk = (applyLoop mk ok xs).1 ++ t := by
  rw [applyLoop_eq_execPlan]
  exact execPlan_initseg ok (xs.map mk)

/-- A successful loop issued calls for its whole slice. -/
theorem applyLoop_success {α : Type} (mk : α → Call) (ok : Call → Option Nat)
    (xs : List α) (h : (applyLoop mk ok xs).2 = Outcome.success) :
    (applyLoop mk ok xs).1 = xs.map mk := by
  rw [applyLoop_eq_execPlan] at h ⊢
  exact execPlan_success ok (xs.map mk) h

/-- Sequencing two stages whose traces are initial segments of their plans
(and that issue their full plan on normal return) yields a trace that is an
initial segment of the concatenated plan. -/
theorem seq2_initseg {P Q : List Call} {p q : List Call × Outcome}
    (h1 : ∃ t, P = p.1 ++ t) (h1c : p.2 = Outcome.success → p.1 = P)
    (h2 : ∃ t, Q = q.1 ++ t) : ∃ t, P ++ Q = (seq2 p q).1 ++ t := by
  rcases p with ⟨tr, o⟩
  cases o with
  | success =>
    obtain ⟨t, ht⟩ := h2
    refine ⟨t, ?_⟩
    rw [← h1c rfl, ht]
    simp [seq2]
  | failure e =>
    obtain ⟨t, ht⟩ := h1
    exact ⟨t ++ Q, by rw [ht]; simp [seq2]⟩
  | nilAliasDeref =>
    obtain ⟨t, ht⟩ := h1
    exact ⟨t ++ Q, by rw [ht]; simp [seq2]⟩

/-- The non-emptiness guard around a mutation loop does not change its
result: an empty slice's loop issues no call and returns normally. -/
theorem guarded_applyLoop {α : Type} (mk : α → Call) (ok : Call → Option Nat)
    (l : List α) : guarded l (applyLoop mk ok) = applyLoop mk ok l := by
  unfold guarded
  by_cases h : l.isEmpty = true
  · rw [if_pos h, List.isEmpty_iff.1 h]
    rfl
  · rw [if_neg h]

/-- The non-emptiness guard around the Object insertion loop does not change
its result. -/
theorem guarded_applyObjLoop (ok : Call → Option Nat) (l : List Object) :
    guarded l (applyObjLoop ok) = applyObjLoop ok l := by
  unfold guarded
  by_cases h : l.isEmpty = true
  · rw [if_pos h, List.isEmpty_iff.1 h]
    rfl
  · rw [if_neg h]

/-- The two packages' insertion phases issue identical calls: the sync
package only adds non-emptiness guards. -/
theorem sync_insert_eq_synctenant (r : Resources) (ok : Call → Option Nat) :
    sync.resources.insert r ok = synctenant.Resources.Insert r ok := by
  unfold sync.resources.insert synctenant.Resources.Insert
  rw [guarded_applyLoop, guarded_applyLoop, guarded_applyLoop, guarded_applyObjLoop]

/-- When every Object carries an alias, the synctenant insertion phase is
the fail-fast execution of the insertion plan. -/
theorem synctenant_insert_eq_execPlan (r : Resources) (ok : Call → Option Nat)
    (h : ∀ o ∈ r.objects, (o.Alias).isSome = true) :
    synctenant.Resources.Insert r ok = execPlan ok (insertPlan r) := by
  unfold synctenant.Resources.Insert insertPlan
  rw [applyLoop_eq_execPlan, applyLoop_eq_execPlan, applyLoop_eq_execPlan,
    applyObjLoop_eq_execPlan ok r.objects h,
    execPlan_append, execPlan_append, execPlan_append]

/-- The synctenant deletion phase is the fail-fast execution of its plan. -/
theorem synctenant_delete_eq_execPlan (r : Resources) (ok : Call → Option Nat) :
    synctenant.Resources.Delete r ok = execPlan ok (synctenantDeletePlan r) := by
  unfold synctenant.Resources.Delete synctenantDeletePlan
  rw [applyLoop_eq_execPlan, applyLoop_eq_execPlan, applyLoop_eq_execPlan,
    applyLoop_eq_execPlan, execPlan_append, execPlan_append, execPlan_append]

/-- The sync-package deletion phase is the fail-fast execution of its plan. -/
theorem sync_delete_eq_execPlan (r : Resources) (ok : Call → Option Nat) :
    sync.resources.delete r ok = execPlan ok (syncDeletePlan r) := by
  unfold sync.resources.delete syncDeletePlan
  rw [guarded_applyLoop, guarded_applyLoop, guarded_applyLoop, guarded_applyLoop,
    applyLoop_eq_execPlan, applyLoop_eq_execPlan, applyLoop_eq_execPlan,
    applyLoop_eq_execPlan, execPlan_append, execPlan_append, execPlan_append]

/-- The synctenant insertion trace is an initial segment of the insertion
plan, regardless of errors or missing aliases. -/
theorem synctenant_insert_initseg (r : Resources) (ok : Call → Option Nat) :
    ∃ t, insertPlan r = (synctenant.Resources.Insert r ok).1 ++ t := by
  unfold synctenant.Resources.Insert insertPlan
  refine seq2_initseg (applyLoop_initseg _ ok _) (applyLoop_success _ ok _) ?_
  refine seq2_initseg (applyObjLoop_initseg ok _) (applyObjLoop_success ok _) ?_
  exact seq2_initseg (applyLoop_initseg _ ok _) (applyLoop_success _ ok _)
    (applyLoop_initseg _ ok _)

/-- A fail-fast execution whose plan succeeds up to position k and fails at
position k stops right there: its trace is the plan's first k+1 calls and
its outcome is that call's error. -/
theorem execPlan_fail_at (ok : Call → Option Nat) (cs : List Call) (k : Nat)
    (c : Call) (e : Nat) (hpre : ∀ c2 ∈ cs.take k, ok c2 = none)
    (hk : cs[k]? = some c) (he : ok c = some e) :
    execPlan ok cs = (cs.take (k + 1), Outcome.failure e) := by
  induction cs generalizing k with
  | nil => simp at hk
  | cons c0 cs ih =>
    cases k with
    | zero =>
      simp only [List.getElem?_cons_zero, Option.some.injEq] at hk
      subst hk
      simp [execPlan, he]
    | succ k =>
      have h0 : ok c0 = none := hpre c0 (by simp [List.take_succ_cons])
      have hpre2 : ∀ c2 ∈ cs.take k, ok c2 = none := by
        intro c2 hc2
        exact hpre c2 (by simp [List.take_succ_cons, hc2])
      have hk2 : cs[k]? = some c := by simpa using hk
      simp only [execPlan, h0, List.take_succ_cons]
      rw [ih k hpre2 hk2]

/-- Every call of the insertion plan is a Create* operation. -/
theorem insertPlan_not_delete (r : Resources) (c : Call)
    (hc : c ∈ insertPlan r) : isDeleteCall c = false := by
  unfold insertPlan at hc
  simp only [List.mem_append, List.mem_map] at hc
  rcases hc with (⟨x, _, rfl⟩ | ⟨x, _, rfl⟩ | ⟨x, _, rfl⟩ | ⟨x, _, rfl⟩) <;> rfl

/-- C3: both apply phases issue their mutations in fixed kind order; each
trace is an initial segment of the plan listing, for insertion, all
CreateObjectType calls, then all CreateObject calls, then all CreateEdgeType
calls, then all CreateEdge calls, and for deletion all Edge deletions, then
all EdgeType deletions, then all Object deletions, then all ObjectType
deletions. -/
theorem apply_phase_kind_order (r : Resources) (ok : Call → Option Nat) :
    (∃ t, insertPlan r = (synctenant.Resources.Insert r ok).1 ++ t) ∧
    (∃ t, insertPlan r = (sync.resources.insert r ok).1 ++ t) ∧
    (∃ t, synctenantDeletePlan r = (synctenant.Resources.Delete r ok).1 ++ t) ∧
    (∃ t, syncDeletePlan r = (sync.resources.delete r ok).1 ++ t) := by
  refine ⟨synctenant_insert_initseg r ok, ?_, ?_, ?_⟩
  · rw [sync_insert_eq_synctenant]
    exact synctenant_insert_initseg r ok
  · rw [synctenant_delete_eq_execPlan]
    exact execPlan_initseg ok _
  · rw [sync_delete_eq_execPlan]
    exact execPlan_initseg ok _

/-- C2 evidence: deleting a change-set holding only ObjectType 1, the
synctenant deletion phase issues the DeleteObject operation for it, while
the sync-package deletion phase issues the type-specific DeleteObjectType
operation. -/
theorem objecttype_deletion_operation :
    synctenant.Resources.Delete otOnly (fun _ => none) =
      ([Call.deleteObject 1], Outcome.success) ∧
    sync.resources.delete otOnly (fun _ => none) =
      ([Call.deleteObjectType 1], Outcome.success) := by
  constructor <;> rfl

/-- C4: if the call for the k-th planned entity fails while every earlier
call succeeds, the apply phase stops at once: the issued calls are exactly
the plan's first k+1 and the phase returns that call's error; nothing after
position k is issued. Stated for the synctenant insertion phase and the
sync-package deletion phase. -/
theorem apply_phase_fail_fast :
    (∀ (r : Resources) (ok : Call → Option Nat) (k : Nat) (c : Call) (e : Nat),
      (∀ o ∈ r.objects, (o.Alias).isSome = true) →
      (∀ c2 ∈ (insertPlan r).take k, ok c2 = none) →
      (insertPlan r)[k]? = some c → ok c = some e →
      synctenant.Resources.Insert r ok =
        ((insertPlan r).take (k + 1), Outcome.failure e)) ∧
    (∀ (r : Resources) (ok : Call → Option Nat) (k : Nat) (c : Call) (e : Nat),
      (∀ c2 ∈ (syncDeletePlan r).take k, ok c2 = none) →
      (syncDeletePlan r)[k]? = some c → ok c = some e →
      sync.resources.delete r ok =
        ((syncDeletePlan r).take (k + 1), Outcome.failure e)) := by
  constructor
  · intro r ok k c e hal hpre hk he
    rw [synctenant_insert_eq_execPlan r ok hal]
    exact execPlan_fail_at ok _ k c e hpre hk he
  · intro r ok k c e hpre hk he
    rw [sync_delete_eq_execPlan]
    exact execPlan_fail_at ok _ k c e hpre hk he

/-- Witness for C4: an insertion failing at plan position 1 and a deletion
failing at plan position 0. -/
theorem apply_phase_fail_fast_witness :
    synctenant.Resources.Insert sampleA okInsFail =
      ((insertPlan sampleA).take 2, Outcome.failure 7) ∧
    sync.resources.delete sampleB okDelFail =
      ((syncDeletePlan sampleB).take 1, Outcome.failure 3) :=
  ⟨apply_phase_fail_fast.1 sampleA okInsFail 1 (Call.createObjectType 2 "svc") 7
      (by decide) (by decide) (by decide) (by decide),
   apply_phase_fail_fast.2 sampleB okDelFail 0 (Call.deleteObject 10) 3
      (by decide) (by decide) (by decide)⟩

/-- C9: the insertion phase dereferences each Object's optional Alias when
calling CreateObject, so it avoids the nil-dereference outcome whenever
every Object of the change-set carries an alias, and the nil-dereference
branch is reached on a change-set holding an alias-less Object. -/
theorem insert_alias_precondition :
    (∀ (r : Resources) (ok : Call → Option Nat),
      (∀ o ∈ r.objects, (o.Alias).isSome = true) →
      (synctenant.Resources.Insert r ok).2 ≠ Outcome.nilAliasDeref ∧
      (sync.resources.insert r ok).2 ≠ Outcome.nilAliasDeref) ∧
    synctenant.Resources.Insert noAliasRes (fun _ => none) =
      ([], Outcome.nilAliasDeref) ∧
    sync.resources.insert noAliasRes (fun _ => none) =
      ([], Outcome.nilAliasDeref) := by
  refine ⟨?_, rfl, rfl⟩
  intro r ok h
  constructor
  · rw [synctenant_insert_eq_execPlan r ok h]
    exact execPlan_no_deref ok _
  · rw [sync_insert_eq_synctenant, synctenant_insert_eq_execPlan r ok h]
    exact execPlan_no_deref ok _

/-- Witness for C9 at a change-set whose every Object has an alias. -/
theorem insert_alias_precondition_witness :
    (∀ o ∈ sampleA.objects, (o.Alias).isSome = true) ∧
    ((synctenant.Resources.Insert sampleA (fun _ => none)).2 ≠ Outcome.nilAliasDeref ∧
     (sync.resources.insert sampleA (fun _ => none)).2 ≠ Outcome.nilAliasDeref) :=
  ⟨by decide, insert_alias_precondition.1 sampleA (fun _ => none) (by decide)⟩

/-- A page loop that reaches a failing request (every earlier response was a
successful continuing page) returns that request's error, whatever was
accumulated so far. -/
theorem pageLoop_fail {α : Type} (resps : List (Except Nat (Page α))) (k e : Nat)
    (acc : List α) (hk : resps[k]? = some (Except.error e))
    (hpre : ∀ x ∈ resps.take k, pageOk x = true) :
    pageLoop resps acc = Except.error e := by
  induction resps generalizing k acc with
  | nil => simp at hk
  | cons x resps ih =>
    cases k with
    | zero =>
      simp only [List.getElem?_cons_zero, Option.some.injEq] at hk
      subst hk
      rfl
    | succ k =>
      have hx : pageOk x = true := hpre x (by simp [List.take_succ_cons])
      cases x with
      | error e2 => simp [pageOk] at hx
      | ok p =>
        have hn : p.HasNext = true := by simpa [pageOk] using hx
        have hk2 : resps[k]? = some (Except.error e) := by simpa using hk
        have hpre2 : ∀ x2 ∈ resps.take k, pageOk x2 = true := fun x2 hx2 =>
          hpre x2 (by simp [List.take_succ_cons, hx2])
        simp only [pageLoop, hn, if_true]
        exact ih k (acc ++ p.Data) hk2 hpre2

/-- C10: when some page request of an Object or Edge fetch fails after a
run of successful continuing pages, the fetch returns that error and the
snapshot record is returned unchanged: the pages accumulated before the
failure stay in the loop's local and are discarded, in both packages. -/
theorem paginated_fetch_error_preserves :
    (∀ (r : Resources) (resps : List (Except Nat (Page Edge))) (k e : Nat),
      resps[k]? = some (Except.error e) →
      (∀ x ∈ resps.take k, pageOk x = true) →
      Resources.readAllEdges r resps = (r, some e) ∧
      Resources.fetchEdges r resps = (r, some e)) ∧
    (∀ (r : Resources) (resps : List (Except Nat (Page Object))) (k e : Nat),
      resps[k]? = some (Except.error e) →
      (∀ x ∈ resps.take k, pageOk x = true) →
      Resources.readAllObjects r resps = (r, some e) ∧
      Resources.fetchObjects r resps = (r, some e)) := by
  constructor <;> intro r resps k e hk hpre <;> constructor <;>
    simp [Resources.readAllEdges, Resources.fetchEdges, Resources.readAllObjects,
      Resources.fetchObjects, pageLoop_fail resps k e [] hk hpre]

/-- Witness for C10 at the sample failing response streams. -/
theorem paginated_fetch_error_preserves_witness :
    (Resources.readAllEdges sampleA edgeRespsFail = (sampleA, some 5) ∧
     Resources.fetchEdges sampleA edgeRespsFail = (sampleA, some 5)) ∧
    (Resources.readAllObjects sampleA objectRespsFail = (sampleA, some 6) ∧
     Resources.fetchObjects sampleA objectRespsFail = (sampleA, some 6)) :=
  ⟨paginated_fetch_error_preserves.1 sampleA edgeRespsFail 1 5 rfl (by decide),
   paginated_fetch_error_preserves.2 sampleA objectRespsFail 1 6 rfl (by decide)⟩

/-- An all-empty change-set's sync-package insertion issues no call and
returns normally, so the non-emptiness guard around it is immaterial. -/
theorem sync_insert_empty (r : Resources) (ok : Call → Option Nat)
    (h : hasAny r = false) : sync.resources.insert r ok = ([], Outcome.success) := by
  simp only [hasAny, Bool.or_eq_false_iff, Bool.not_eq_false'] at h
  obtain ⟨⟨⟨h1, h2⟩, h3⟩, h4⟩ := h
  rw [List.isEmpty_iff] at h1 h2 h3 h4
  simp [sync.resources.insert, guarded, h1, h2, h3, h4, seq2]

/-- C5: with the dry-run flag set, a sync run performs zero Create* or
Delete* calls regardless of the computed change-sets, computes and reports
the diffs it is allowed to compute, and terminates successfully; in both
packages. -/
theorem dry_run_purity (io : Bool) (src dst : Resources) (ok : Call → Option Nat) :
    synctenant.Command.sync true io src dst ok =
      ((if io then [Event.diffInsertions]
        else [Event.diffDeletions, Event.diffInsertions]), Outcome.success) ∧
    sync.TenantCommand.sync true io src dst ok =
      ((if io then [Event.diffInsertions]
        else [Event.diffDeletions, Event.diffInsertions]), Outcome.success) := by
  cases io <;> exact ⟨rfl, rfl⟩

/-- The synctenant orchestrator under insert-only mode: dry-run stops after
the insertion diff; otherwise the run is exactly the insertion diff followed
by the insertion phase applied to it. -/
theorem synctenant_sync_insert_only (dr : Bool) (src dst : Resources)
    (ok : Call → Option Nat) :
    synctenant.Command.sync dr true src dst ok =
      (if dr then ([Event.diffInsertions], Outcome.success)
       else
        (Event.diffInsertions ::
          ((synctenant.Resources.Insert (Resources.Diff NewResources src dst) ok).1.map
            Event.call),
         (synctenant.Resources.Insert (Resources.Diff NewResources src dst) ok).2)) := by
  cases dr <;> rfl

/-- The sync-package orchestrator under insert-only mode: the non-emptiness
guard folds away, leaving the same shape as the synctenant orchestrator. -/
theorem sync_sync_insert_only (dr : Bool) (src dst : Resources)
    (ok : Call → Option Nat) :
    sync.TenantCommand.sync dr true src dst ok =
      (if dr then ([Event.diffInsertions], Outcome.success)
       else
        (Event.diffInsertions ::
          ((sync.resources.insert (Resources.Diff NewResources src dst) ok).1.map
            Event.call),
         (sync.resources.insert (Resources.Diff NewResources src dst) ok).2)) := by
  cases dr with
  | true => rfl
  | false =>
    cases hA : hasAny (Resources.Diff NewResources src dst) with
    | true => simp [sync.TenantCommand.sync, hA]
    | false => simp [sync.TenantCommand.sync, hA, sync_insert_empty _ ok hA]

/-- C6: with the insert-only flag set, a sync run performs zero Delete*
calls and never evaluates the deletion diff (no deletion-diff event occurs),
while the insertion phase proceeds unchanged: the run is exactly the
insertion diff followed (when not dry-run) by the ordinary insertion phase;
in both packages. -/
theorem insert_only_suppression (dr : Bool) (src dst : Resources)
    (ok : Call → Option Nat) :
    (∀ ev ∈ (synctenant.Command.sync dr true src dst ok).1,
        isDeleteEvent ev = false ∧ ev ≠ Event.diffDeletions) ∧
    (∀ ev ∈ (sync.TenantCommand.sync dr true src dst ok).1,
        isDeleteEvent ev = false ∧ ev ≠ Event.diffDeletions) ∧
    synctenant.Command.sync dr true src dst ok =
      (if dr then ([Event.diffInsertions], Outcome.success)
       else
        (Event.diffInsertions ::
          ((synctenant.Resources.Insert (Resources.Diff NewResources src dst) ok).1.map
            Event.call),
         (synctenant.Resources.Insert (Resources.Diff NewResources src dst) ok).2)) ∧
    sync.TenantCommand.sync dr true src dst ok =
      (if dr then ([Event.diffInsertions], Outcome.success)
       else
        (Event.diffInsertions ::
          ((sync.resources.insert (Resources.Diff NewResources src dst) ok).1.map
            Event.call),
         (sync.resources.insert (Resources.Diff NewResources src dst) ok).2)) := by
  have hins : ∀ c ∈ (synctenant.Resources.Insert
      (Resources.Diff NewResources src dst) ok).1, isDeleteCall c = false := by
    intro c hc
    obtain ⟨t, ht⟩ := synctenant_insert_initseg (Resources.Diff NewResources src dst) ok
    have : c ∈ insertPlan (Resources.Diff NewResources src dst) := by
      rw [ht]
      exact List.mem_append_left _ hc
    exact insertPlan_not_delete _ c this
  have hinsS : ∀ c ∈ (sync.resources.insert
      (Resources.Diff NewResources src dst) ok).1, isDeleteCall c = false := by
    rw [sync_insert_eq_synctenant]
    exact hins
  have h1 := synctenant_sync_insert_only dr src dst ok
  have h2 := sync_sync_insert_only dr src dst ok
  refine ⟨?_, ?_, h1, h2⟩
  · intro ev hev
    rw [h1] at hev
    cases dr with
    | true =>
      simp at hev
      subst hev
      exact ⟨rfl, fun h => Event.noConfusion h⟩
    | false =>
      simp at hev
      rcases hev with rfl | ⟨c, hc, rfl⟩
      · exact ⟨rfl, fun h => Event.noConfusion h⟩
      · exact ⟨hins c hc, fun h => Event.noConfusion h⟩
  · intro ev hev
    rw [h2] at hev
    cases dr with
    | true =>
      simp at hev
      subst hev
      exact ⟨rfl, fun h => Event.noConfusion h⟩
    | false =>
      simp at hev
      rcases hev with rfl | ⟨c, hc, rfl⟩
      · exact ⟨rfl, fun h => Event.noConfusion h⟩
      · exact ⟨hinsS c hc, fun h => Event.noConfusion h⟩
